import Mathlib

/-!
# Verification of the `atom` reactive state toolkit

A shallow embedding of the core of the repository:

* the path-addressable composite store (`createCompositeStore`, `setState`,
  `setProperty`, `$get`, `$sub`, `createSnapshot`, `resolvePath` from the
  store source file),
* the observable cell (`Particle` with `publish`, `undo`, `redo`, `forward`,
  `rewind`, `subscribe`, `notifySubscribers`),
* the construction paths of `createStore` and `atom`.

JavaScript objects are modelled with an explicit heap so that reference
aliasing and in-place mutation are captured exactly as they happen at
runtime; JS `undefined` is a first-class value; fallible operations return
`Except JsErr`.
-/

/-- A JavaScript runtime error.  `typeError` covers the TypeErrors raised by
reading a property of `undefined` or calling a missing method; `thrown n` is
a user exception with identity `n`. -/
inductive JsErr where
  | typeError
  | thrown (n : Nat)
deriving DecidableEq, Repr

/-- A JavaScript value: a primitive (identity abstracted as a `Nat`), a
reference into the heap, or `undefined`. -/
inductive HVal where
  | prim (n : Nat)
  | ref (a : Nat)
  | undef
deriving DecidableEq, Repr

/-- A JavaScript object: its own properties in insertion order. -/
abbrev Obj : Type := List (String × HVal)

/-- The heap: object addresses are list indices; allocation appends. -/
abbrev Heap : Type := List Obj

/-- Property read on an object: a missing own property reads as `undefined`. -/
def objGet (o : Obj) (k : String) : HVal :=
  match o.find? (fun e => e.1 == k) with
  | some e => e.2
  | none => HVal.undef

/-- Property write on an object: replaces an existing own property in place,
otherwise appends a new one (JS assignment semantics). -/
def objSet (o : Obj) (k : String) (v : HVal) : Obj :=
  if (o.find? (fun e => e.1 == k)).isSome then
    o.map (fun e => if e.1 == k then (k, v) else e)
  else o ++ [(k, v)]

/-- One step of the walk `state = state[key]` in `resolveSegment`:
reading a property of a reference dereferences the heap, reading a property
of a primitive yields `undefined` (primitives own no properties in the
model), and reading a property of `undefined` throws a TypeError. -/
def hGetProp (h : Heap) (v : HVal) (k : String) : Except JsErr HVal :=
  match v with
  | .ref a => .ok (objGet ((h.get? a).getD []) k)
  | .prim _ => .ok HVal.undef
  | .undef => .error JsErr.typeError

/-- `resolveSegment`: `for (const key of keys) state = state[key]`. -/
def resolveSegments (h : Heap) : HVal → List String → Except JsErr HVal
  | v, [] => .ok v
  | v, k :: ks =>
    match hGetProp h v k with
    | .error e => .error e
    | .ok w => resolveSegments h w ks

/-- `path.split(".")` of JS: splits on every dot, never drops a segment
(the empty string splits to `[""]`). -/
def splitSegs : List Char → List Char → List String
  | [], acc => [String.mk acc.reverse]
  | ch :: rest, acc =>
    if ch = '.' then String.mk acc.reverse :: splitSegs rest []
    else splitSegs rest (ch :: acc)

/-- `splitPath` of the store source: `path.split(".")`. -/
def splitPath (p : String) : List String := splitSegs p.toList []

/-- The composite store state: the heap of live objects, the `state`
variable (the current root), and the `Map<string, Set<subscriber>>` of
per-path subscriber buckets in insertion order.  Subscribers are identified
by numbers; store subscribers are modelled as passive observers, so a
notification is an event `(subscriber, value)`. -/
structure CStore where
  heap : Heap
  root : HVal
  subs : List (String × List Nat)
deriving DecidableEq

/-- `getSubscribersByPath(path = "")`: returns the bucket for the key,
inserting an empty bucket into the map first when absent. -/
def getBucket (m : List (String × List Nat)) (key : String) :
    List (String × List Nat) × List Nat :=
  match m.find? (fun e => e.1 == key) with
  | some e => (m, e.2)
  | none => (m ++ [(key, [])], [])

/-- Replaces the contents of the bucket for `key` (the JS code mutates the
`Set` object held in the map). -/
def putBucket (m : List (String × List Nat)) (key : String) (b : List Nat) :
    List (String × List Nat) :=
  m.map (fun e => if e.1 == key then (key, b) else e)

/-- JS string truthiness of an optional path argument: `undefined` and the
empty string are falsy. -/
def pathTruthy (p : Option String) : Bool := p.getD "" != ""

/-- `notifySubscribers(value, path?)` of the composite store: looks up the
bucket for the path (default `""`) and invokes each subscriber in it with
the value.  The store's notification loop has no try/catch; subscribers are
modelled as passive, so the result is the list of invocation events. -/
def cNotify (m : List (String × List Nat)) (path : Option String) (value : HVal) :
    List (String × List Nat) × List (Nat × HVal) :=
  let key := path.getD ""
  let (m1, bucket) := getBucket m key
  (m1, bucket.map (fun s => (s, value)))

/-- `setState(value, path?)` of the composite store: commit the new root,
then either notify the whole-record bucket (no path) or notify the bucket of
`path` with the value resolved from the new root. -/
def setState (s : CStore) (value : HVal) (path : Option String) :
    Except JsErr (CStore × List (Nat × HVal)) :=
  let s1 : CStore := { s with root := value }
  if pathTruthy path then
    match resolveSegments s1.heap s1.root (splitPath (path.getD "")) with
    | .error e => .error e
    | .ok v =>
      let (m1, ev) := cNotify s1.subs path v
      .ok ({ s1 with subs := m1 }, ev)
  else
    let (m1, ev) := cNotify s1.subs none value
    .ok ({ s1 with subs := m1 }, ev)

/-- `createSnapshot(state)`: `Object.create` over the own property
descriptors — a fresh object whose own properties are copied by reference
from the source object.  Allocates at the end of the heap. -/
def createSnapshot (h : Heap) (root : HVal) : Heap × Nat :=
  let o : Obj := match root with
    | .ref a => (h.get? a).getD []
    | _ => []
  (h ++ [o], h.length)

/-- `current[pivot] = value`: in-place assignment through a reference;
assigning to a property of a primitive or of `undefined` throws a TypeError
(ES modules run in strict mode). -/
def hSetProp (h : Heap) (v : HVal) (k : String) (x : HVal) : Except JsErr Heap :=
  match v with
  | .ref a =>
    .ok (match h.get? a with
      | some o => h.set a (objSet o k x)
      | none => h)
  | _ => .error JsErr.typeError

/-- `setProperty(value, path?)` of the composite store.  Without a path it
delegates to `setState`.  With a path it clones the root one level deep
(`createSnapshot`), walks the clone down to the parent of the final segment
(`for (const key of segments) current = current[key]`), assigns the new
value there in place, and commits the clone via `setState(snapshot)` —
note: the source passes no path to `setState` here. -/
def setProperty (s : CStore) (value : HVal) (path : Option String) :
    Except JsErr (CStore × List (Nat × HVal)) :=
  if pathTruthy path then
    let p := path.getD ""
    let keys := splitPath p
    let (heap1, snapAddr) := createSnapshot s.heap s.root
    let snap : HVal := HVal.ref snapAddr
    let pivot := keys.getLastD ""
    let segments := keys.dropLast
    match resolveSegments heap1 snap segments with
    | .error e => .error e
    | .ok cur =>
      match hSetProp heap1 cur pivot value with
      | .error e => .error e
      | .ok heap2 => setState { s with heap := heap2 } snap none
  else setState s value none

/-- `$sub(subscriber, path?)`: adds the subscriber to the bucket of the path
(default whole-record bucket `""`); `Set.add` is a no-op on a duplicate. -/
def subStore (s : CStore) (id : Nat) (path : Option String) : CStore :=
  let key := path.getD ""
  let (m1, bucket) := getBucket s.subs key
  let bucket1 := if id ∈ bucket then bucket else bucket ++ [id]
  { s with subs := putBucket m1 key bucket1 }

/-- `$get(path?)`: with a truthy path, resolve it from the current root;
otherwise return the root itself. -/
def getStore (s : CStore) (path : Option String) : Except JsErr HVal :=
  if pathTruthy path then resolveSegments s.heap s.root (splitPath (path.getD ""))
  else .ok s.root

/-! ## The observable cell (`Particle`) -/

/-- An effect a subscriber callback performs on the cell's subscriber set
when invoked: `add x` is `subscribe(x, false)` (insert without immediate
invocation), `remove x` is the disposer's `subscribers.delete(x)`. -/
inductive SetAction where
  | add (id : Nat)
  | remove (id : Nat)
deriving DecidableEq, Repr

/-- The behaviour of one subscriber callback: the subscriber-set mutations
it performs, in order, followed by whether it throws. -/
structure CbAct where
  actions : List SetAction
  throws : Bool
deriving DecidableEq, Repr

/-- A callback environment: behaviour per subscriber identity; identities
not listed are passive observers. -/
abbrev CbEnv : Type := List (Nat × CbAct)

/-- Looks up a callback's behaviour; absent callbacks are passive. -/
def lookupCb (env : CbEnv) (x : Nat) : CbAct :=
  match env.find? (fun e => e.1 == x) with
  | some e => e.2
  | none => { actions := [], throws := false }

/-- Running a callback body after its set mutations: a throwing callback
surfaces a JS exception to the invocation site. -/
def cbInvoke (act : CbAct) : Except JsErr Unit :=
  if act.throws then .error (JsErr.thrown 0) else .ok ()

/-- Applies one subscriber-set mutation during a notification pass.  The
pass state is `(done, remaining)`: `done` holds the already-visited members
still in the set, `remaining` the members not yet visited, both in JS `Set`
insertion order.  `Set.add` appends only a genuinely new member (it will be
visited later in the same pass, as JS `Set.forEach` visits entries added
during iteration); `Set.delete` removes the member wherever it is (a member
deleted before being visited is not visited). -/
def applyAct : List Nat × List Nat → SetAction → List Nat × List Nat
  | (done, rem), .add x =>
    if x ∈ done ∨ x ∈ rem then (done, rem) else (done, rem ++ [x])
  | (done, rem), .remove x =>
    (done.filter (fun y => y != x), rem.filter (fun y => y != x))

/-- The outcome of a notification pass: the invocation events in order
(subscriber, value received), the subscriber set after the pass, and the
number of subscriber exceptions caught at the notification site. -/
structure NotifyRes (V : Type) where
  invoked : List (Nat × Option V)
  subsAfter : List Nat
  caught : Nat
deriving DecidableEq, Repr

/-- The live iteration of `subscribers.forEach` inside `notifySubscribers`:
visits the first not-yet-visited member of the current set, applies the
callback's set mutations, and catches (counts) its exception if it throws —
the `try`/`catch` in the source isolates it so iteration continues.  `fuel`
bounds the number of visits (JS diverges when callbacks keep re-adding
members; `none` models that divergence). -/
def notifyAux (env : CbEnv) (val : Option V) :
    Nat → List Nat → List Nat → List (Nat × Option V) → Nat → Option (NotifyRes V)
  | _, done, [], inv, caught => some ⟨inv, done, caught⟩
  | 0, _, _ :: _, _, _ => none
  | fuel + 1, done, x :: rest, inv, caught =>
    let act := lookupCb env x
    let s1 := act.actions.foldl applyAct (done ++ [x], rest)
    let caught1 := match cbInvoke act with
      | .ok _ => caught
      | .error _ => caught + 1
    notifyAux env val fuel s1.1 s1.2 (inv ++ [(x, val)]) caught1

/-- The observable cell of `particle.ts`: current state (a JS value, so
possibly `undefined`), subscriber set in insertion order, history cursor
(`currentIndex`), debug flag, and the time-travel history. -/
structure Particle (V : Type) where
  state : Option V
  subscribers : List Nat
  cursor : Nat
  debug : Bool
  history : List (Option V)
deriving DecidableEq, Repr

/-- The `Particle` constructor: stores the initial value, starts with no
subscribers and cursor `0`, and seeds the history with the initial value
exactly when `debug` is enabled. -/
def Particle.init (initialValue : Option V) (debug : Bool) : Particle V :=
  { state := initialValue
    subscribers := []
    cursor := 0
    debug := debug
    history := if debug then [initialValue] else [] }

/-- JS array indexing `l[i]` for a history of JS values: out of range reads
as `undefined`, in range yields the stored value. -/
def jsGet (l : List (Option V)) (i : Nat) : Option V := (l.get? i).join

/-- JS array indexing with a possibly negative computed index. -/
def jsGetI (l : List (Option V)) (i : Int) : Option V :=
  if 0 ≤ i then jsGet l i.toNat else none

/-- `canUndo`: history enabled and the cursor is positive. -/
def Particle.canUndo (p : Particle V) : Bool :=
  p.debug && decide (0 < p.cursor)

/-- `canRedo`: history enabled and the cursor is before the last entry
(`currentIndex < history.length - 1` over JS numbers). -/
def Particle.canRedo (p : Particle V) : Bool :=
  p.debug && decide (p.cursor + 1 < p.history.length)

/-- `notifySubscribers()`: iterates the live subscriber set, invoking each
callback with the current state, catching per-callback exceptions. -/
def Particle.notify [DecidableEq V] (fuel : Nat) (env : CbEnv) (p : Particle V) :
    Option (NotifyRes V) :=
  notifyAux env p.state fuel [] p.subscribers [] 0

/-- The outcome of `publish`: the returned value (always the argument), the
cell afterwards, and the notification events of the pass. -/
structure PubRes (V : Type) where
  ret : Option V
  cell : Particle V
  invoked : List (Nat × Option V)
  caught : Nat
deriving DecidableEq, Repr

/-- `publish(value)`: when `Object.is(state, value)` nothing happens and the
value is returned; otherwise the state is replaced, then — with history
enabled — the history is truncated after the cursor (`splice(cursor + 1)`),
the value appended and the cursor moved to the new tail, and finally the
subscribers are notified. -/
def Particle.publish [DecidableEq V] (fuel : Nat) (env : CbEnv) (p : Particle V)
    (value : Option V) : Option (PubRes V) :=
  if p.state = value then some ⟨value, p, [], 0⟩
  else
    let p1 : Particle V := { p with state := value }
    let p2 : Particle V :=
      if p.debug then
        let h := p1.history.take (p1.cursor + 1) ++ [value]
        { p1 with history := h, cursor := h.length - 1 }
      else p1
    (Particle.notify fuel env p2).map
      (fun nr => ⟨value, { p2 with subscribers := nr.subsAfter }, nr.invoked, nr.caught⟩)

/-- `undo()`: when `canUndo`, decrement the cursor, load `history[cursor]`
and notify; otherwise a silent no-op. -/
def Particle.undo [DecidableEq V] (fuel : Nat) (env : CbEnv) (p : Particle V) :
    Option (Particle V × List (Nat × Option V)) :=
  if p.canUndo then
    let c := p.cursor - 1
    let p1 : Particle V := { p with cursor := c, state := jsGet p.history c }
    (Particle.notify fuel env p1).map
      (fun nr => ({ p1 with subscribers := nr.subsAfter }, nr.invoked))
  else some (p, [])

/-- `redo()`: when `canRedo`, increment the cursor, load `history[cursor]`
and notify; otherwise a silent no-op. -/
def Particle.redo [DecidableEq V] (fuel : Nat) (env : CbEnv) (p : Particle V) :
    Option (Particle V × List (Nat × Option V)) :=
  if p.canRedo then
    let c := p.cursor + 1
    let p1 : Particle V := { p with cursor := c, state := jsGet p.history c }
    (Particle.notify fuel env p1).map
      (fun nr => ({ p1 with subscribers := nr.subsAfter }, nr.invoked))
  else some (p, [])

/-- `forward()`: peek at the next history entry; `undefined` without debug
or at the tail. -/
def Particle.forward (p : Particle V) : Option V :=
  if !p.debug then none
  else if p.history.length ≤ p.cursor + 1 then none
  else jsGet p.history (p.cursor + 1)

/-- `rewind()` of `particle.ts` (named `backward` in the other revision of
the cell, with an identical body): computes the previous index
`currentIndex - 1` over JS numbers; if it is exactly `0` the *current*
state is returned, if positive the entry at that index, otherwise
`undefined`. -/
def Particle.rewind (p : Particle V) : Option V :=
  if !p.debug then none
  else
    let c : Int := (p.cursor : Int) - 1
    if c = 0 then p.state
    else if 0 < c then jsGetI p.history c
    else none

/-- `subscribe(observer, immediate)`: inserts a genuinely new observer and,
when `immediate`, invokes it once with the current state (the returned flag
records that immediate invocation). -/
def Particle.subscribe (p : Particle V) (id : Nat) (immediate : Bool) :
    Particle V × Bool :=
  if id ∈ p.subscribers then (p, false)
  else ({ p with subscribers := p.subscribers ++ [id] }, immediate)

/-- `unsubscribe()`: clears every subscriber, leaving history intact. -/
def Particle.unsubscribeAll (p : Particle V) : Particle V :=
  { p with subscribers := [] }

/-- One call in a history session: `publish`, `undo` or `redo`. -/
inductive POp (V : Type) where
  | publish (v : Option V)
  | undo
  | redo
deriving DecidableEq, Repr

/-- Runs one call against the cell. -/
def runOp [DecidableEq V] (fuel : Nat) (env : CbEnv) (p : Particle V) :
    POp V → Option (Particle V)
  | .publish v => (Particle.publish fuel env p v).map (fun r => r.cell)
  | .undo => (Particle.undo fuel env p).map (fun r => r.1)
  | .redo => (Particle.redo fuel env p).map (fun r => r.1)

/-- Runs a finite sequence of calls against the cell. -/
def runOps [DecidableEq V] (fuel : Nat) (env : CbEnv) :
    List (POp V) → Particle V → Option (Particle V)
  | [], p => some p
  | o :: os, p => (runOp fuel env p o).bind (runOps fuel env os)

/-! ## Construction: `createStore` and `atom` -/

/-- The `state` argument of `createStore` / the `config.state` of `atom`:
either a plain value or a factory function, represented by the result of
invoking it (a value, or a thrown exception). -/
inductive Factory where
  | val (v : HVal)
  | fn (r : Except JsErr HVal)
deriving Repr

/-- `isDictionary(value)`: `typeof value === "object" && value !== null`. -/
def isDictionary : HVal → Bool
  | .ref _ => true
  | _ => false

/-- A constructed store: either the composite (path-addressable) store over
a dictionary or the primitive store over any other value. -/
inductive StoreInst where
  | composite (s : CStore)
  | primitive (v : HVal)
deriving DecidableEq

/-- `createStore(initialState?)`: resolves the initial state inside a
`try`/`catch` — a throwing factory is logged and replaced by `undefined` —
then builds a composite store when the result is a dictionary and a
primitive store otherwise. -/
def createStore (h : Heap) (f : Factory) : StoreInst :=
  let st : HVal :=
    match f with
    | .val v => v
    | .fn (.ok v) => v
    | .fn (.error _) => HVal.undef
  if isDictionary st then .composite { heap := h, root := st, subs := [] }
  else .primitive st

/-- The initial-state resolution of `atom`:
`isFunction(state) ? state(context) : state` — with no `try`/`catch`, so a
throwing state factory propagates its exception. -/
def atomInitState (st : Factory) : Except JsErr HVal :=
  match st with
  | .val v => .ok v
  | .fn r => r

/-- The construction prefix of `atom`: resolve the initial state (letting a
factory exception escape), then build the observable value cell
`new Particle(initialState, debug)`. -/
def atomConstruct (st : Factory) (debug : Bool) : Except JsErr (Particle HVal) :=
  match atomInitState st with
  | .error e => .error e
  | .ok v => .ok (Particle.init (some v) debug)

/-- Dynamic method lookup on a `Particle` of `particle.ts` for the
zero-argument history peeks: the class defines `forward` and `rewind`;
any other name is not a member, so reading it yields `undefined`. -/
def particleDispatch (p : Particle V) : String → Option (Option V)
  | "forward" => some p.forward
  | "rewind" => some p.rewind
  | _ => none

/-- The `timeline.backward` getter of `atom`: `observable.backward()` —
dispatched dynamically against the `Particle` class, which has no
`backward` member, so the call target is `undefined` and invoking it
throws a TypeError. -/
def timelineBackward (p : Particle V) : Except JsErr (Option V) :=
  match particleDispatch p "backward" with
  | some r => .ok r
  | none => .error JsErr.typeError

/-- The `timeline.forward` getter of `atom`: `observable.forward()`. -/
def timelineForward (p : Particle V) : Except JsErr (Option V) :=
  match particleDispatch p "forward" with
  | some r => .ok r
  | none => .error JsErr.typeError

/-! ## Concrete instances used by the claims -/

/-- The heap of the nested record `{a: {b: {c: 1}}}`: the root object at
address `0`, `{b: …}` at `1`, `{c: 1}` at `2`. -/
def heapABC : Heap := [[("a", HVal.ref 1)], [("b", HVal.ref 2)], [("c", HVal.prim 1)]]

/-- The composite store freshly created over `{a: {b: {c: 1}}}`. -/
def storeABC : CStore := { heap := heapABC, root := HVal.ref 0, subs := [] }

/-- `storeABC` with observer `1` subscribed at `"a.b.c"`, observer `2` at
the whole record, and observer `3` at the unrelated path `"x.y"`. -/
def storeSubbed : CStore :=
  subStore (subStore (subStore storeABC 1 (some "a.b.c")) 2 none) 3 (some "x.y")

/-- A cell whose current state is `0` with a single passive subscriber `7`
(the concrete input of the identity short-circuit counterexample). -/
def cellSeven : Particle Nat :=
  { state := some 0, subscribers := [7], cursor := 0, debug := false, history := [] }

/-- A cell with two subscribers `1` and `2` (the concrete input of the
re-entrancy counterexample). -/
def cellOneTwo : Particle Nat :=
  { state := some 0, subscribers := [1, 2], cursor := 0, debug := false, history := [] }

/-- The cell produced by a state-changing `publish`, before the notification
pass writes back the (possibly mutated) subscriber set. -/
def publishedCell (p : Particle V) (v : Option V) : Particle V :=
  { state := v
    subscribers := p.subscribers
    cursor := if p.debug then (p.history.take (p.cursor + 1)).length else p.cursor
    debug := p.debug
    history := if p.debug then p.history.take (p.cursor + 1) ++ [v] else p.history }

/-- The documented cell invariant: history enabled, cursor in range, and the
history entry at the cursor is the current value. -/
def HistoryInv (p : Particle V) : Prop :=
  p.debug = true ∧ p.cursor < p.history.length ∧ p.history.get? p.cursor = some p.state

/-- The cell reached from `new Particle(0, true)` by `publish(1)` then
`undo()` (the concrete instance of the history-invariant witness). -/
def cellUndone : Particle Nat :=
  { state := some 0, subscribers := [], cursor := 0, debug := true,
    history := [some 0, some 1] }

/-- A history-enabled cell sitting at cursor `1` (the concrete instance of
the rewind off-by-one witness). -/
def cellCursorOne : Particle Nat :=
  { state := some 5, subscribers := [], cursor := 1, debug := true,
    history := [some 9, some 5] }

/-! ## Helper lemmas -/

theorem lookupCb_nil (x : Nat) : lookupCb [] x = { actions := [], throws := false } := rfl

/-- A notification pass over callbacks that perform no subscriber-set
mutations visits exactly the pending members in order, leaves the set
unchanged, and counts one caught exception per throwing callback. -/
theorem notifyAux_actionless {V : Type} (env : CbEnv) (val : Option V) :
    ∀ (remaining : List Nat) (done : List Nat) (inv : List (Nat × Option V))
      (caught fuel : Nat),
      (∀ x ∈ remaining, (lookupCb env x).actions = []) →
      remaining.length ≤ fuel →
      notifyAux env val fuel done remaining inv caught =
        some ⟨inv ++ remaining.map (fun x => (x, val)), done ++ remaining,
              caught + (remaining.filter (fun x => (lookupCb env x).throws)).length⟩ := by
  intro remaining
  induction remaining with
  | nil =>
    intro done inv caught fuel _ _
    simp [notifyAux]
  | cons x rest ih =>
    intro done inv caught fuel hact hfuel
    match fuel with
    | 0 => simp at hfuel
    | fuel + 1 =>
      have hx : (lookupCb env x).actions = [] := hact x (by simp)
      have hrest : ∀ y ∈ rest, (lookupCb env y).actions = [] :=
        fun y hy => hact y (by simp [hy])
      have hlen : rest.length ≤ fuel := by simpa using hfuel
      simp only [notifyAux, hx, List.foldl_nil, cbInvoke]
      by_cases ht : (lookupCb env x).throws
      · rw [if_pos ht]
        rw [ih (done ++ [x]) (inv ++ [(x, val)]) (caught + 1) fuel hrest hlen]
        simp [ht, List.filter_cons]
        omega
      · rw [if_neg ht]
        rw [ih (done ++ [x]) (inv ++ [(x, val)]) caught fuel hrest hlen]
        simp [ht, List.filter_cons]

/-- Characterization of a state-changing `publish` under mutation-free
callbacks: the result is `publishedCell`, every subscriber is invoked once
with the new value, and throwing callbacks are counted, never propagated. -/
theorem publish_changed {V : Type} [DecidableEq V] (p : Particle V) (v : Option V)
    (env : CbEnv) (fuel : Nat)
    (hne : p.state ≠ v)
    (hact : ∀ x ∈ p.subscribers, (lookupCb env x).actions = [])
    (hfuel : p.subscribers.length ≤ fuel) :
    Particle.publish fuel env p v =
      some ⟨v, publishedCell p v, p.subscribers.map (fun x => (x, v)),
            (p.subscribers.filter (fun x => (lookupCb env x).throws)).length⟩ := by
  rw [Particle.publish, if_neg hne]
  cases hd : p.debug with
  | true =>
    simp only [hd, if_true, Particle.notify]
    rw [notifyAux_actionless env v p.subscribers [] [] 0 fuel hact hfuel]
    simp [publishedCell, hd]
  | false =>
    simp only [hd, Particle.notify, Bool.false_eq_true, if_false]
    rw [notifyAux_actionless env v p.subscribers [] [] 0 fuel hact hfuel]
    simp [publishedCell, hd]

/-- `publish` preserves the history invariant. -/
theorem publish_inv {V : Type} [DecidableEq V] {fuel : Nat} {env : CbEnv}
    {p : Particle V} {v : Option V} {r : PubRes V}
    (hp : HistoryInv p) (h : Particle.publish fuel env p v = some r) :
    HistoryInv r.cell := by
  obtain ⟨hd, hc, hg⟩ := hp
  rw [Particle.publish] at h
  by_cases hsv : p.state = v
  · rw [if_pos hsv] at h
    cases h
    exact ⟨hd, hc, hg⟩
  · rw [if_neg hsv] at h
    simp only [hd, if_true] at h
    rw [Option.map_eq_some'] at h
    obtain ⟨nr, _, hr⟩ := h
    subst hr
    refine ⟨rfl, ?_, ?_⟩
    · simp only [List.length_append, List.length_cons, List.length_nil]
      omega
    · simp only
      have hlen : (List.take (p.cursor + 1) p.history).length + (0 + 1) - 1
          = (List.take (p.cursor + 1) p.history).length := by omega
      rw [List.length_append, List.length_cons, List.length_nil, hlen,
        List.get?_concat_length]

/-- `undo` preserves the history invariant. -/
theorem undo_inv {V : Type} [DecidableEq V] {fuel : Nat} {env : CbEnv}
    {p : Particle V} {r : Particle V × List (Nat × Option V)}
    (hp : HistoryInv p) (h : Particle.undo fuel env p = some r) :
    HistoryInv r.1 := by
  obtain ⟨hd, hc, hg⟩ := hp
  rw [Particle.undo] at h
  by_cases hcu : p.canUndo
  · rw [if_pos hcu] at h
    rw [Option.map_eq_some'] at h
    obtain ⟨nr, _, hr⟩ := h
    subst hr
    have hlt : p.cursor - 1 < p.history.length := by omega
    refine ⟨hd, hlt, ?_⟩
    simp only [jsGet]
    rw [List.get?_eq_get hlt]
    simp
  · rw [if_neg hcu] at h
    cases h
    exact ⟨hd, hc, hg⟩

/-- `redo` preserves the history invariant. -/
theorem redo_inv {V : Type} [DecidableEq V] {fuel : Nat} {env : CbEnv}
    {p : Particle V} {r : Particle V × List (Nat × Option V)}
    (hp : HistoryInv p) (h : Particle.redo fuel env p = some r) :
    HistoryInv r.1 := by
  obtain ⟨hd, hc, hg⟩ := hp
  rw [Particle.redo] at h
  by_cases hcr : p.canRedo
  · rw [if_pos hcr] at h
    rw [Option.map_eq_some'] at h
    obtain ⟨nr, _, hr⟩ := h
    subst hr
    have hlt : p.cursor + 1 < p.history.length := by
      have := hcr
      rw [Particle.canRedo] at this
      simp at this
      exact this.2
    refine ⟨hd, hlt, ?_⟩
    simp only [jsGet]
    rw [List.get?_eq_get hlt]
    simp
  · rw [if_neg hcr] at h
    cases h
    exact ⟨hd, hc, hg⟩

/-- Any successful finite run of `publish`/`undo`/`redo` calls preserves the
history invariant. -/
theorem runOps_inv {V : Type} [DecidableEq V] (fuel : Nat) (env : CbEnv) :
    ∀ (ops : List (POp V)) (p q : Particle V),
      HistoryInv p → runOps fuel env ops p = some q → HistoryInv q := by
  intro ops
  induction ops with
  | nil =>
    intro p q hp h
    simp [runOps] at h
    subst h; exact hp
  | cons o os ih =>
    intro p q hp h
    simp only [runOps, Option.bind_eq_bind] at h
    rw [Option.bind_eq_some] at h
    obtain ⟨p1, h1, h2⟩ := h
    refine ih p1 q ?_ h2
    match o with
    | .publish v =>
      simp only [runOp, Option.map_eq_some'] at h1
      obtain ⟨r, hr, hcell⟩ := h1
      subst hcell
      exact publish_inv hp hr
    | .undo =>
      simp only [runOp, Option.map_eq_some'] at h1
      obtain ⟨r, hr, hcell⟩ := h1
      subst hcell
      exact undo_inv hp hr
    | .redo =>
      simp only [runOp, Option.map_eq_some'] at h1
      obtain ⟨r, hr, hcell⟩ := h1
      subst hcell
      exact redo_inv hp hr

/-! ## Claims -/

/-- C1: evaluating the source at the claim's scenario.  Over the store
created on `{a: {b: {c: 1}}}` (root at address `0`), the whole-record read
returns the root reference, `"a.b.c"` resolves to `1` before the write —
and after `setProperty(2, "a.b.c")` the *previously captured* root
reference resolves `"a.b.c"` to `2`: the write mutated the shared nested
object `{c: 1}` in place, because `createSnapshot` clones only the top
level and the walk then descends into objects shared with the old root.
The copy-on-write isolation stated by the claim does not hold. -/
theorem setProperty_mutates_prior_root :
    getStore storeABC none = Except.ok (HVal.ref 0) ∧
    resolveSegments storeABC.heap (HVal.ref 0) (splitPath "a.b.c") =
      Except.ok (HVal.prim 1) ∧
    (setProperty storeABC (HVal.prim 2) (some "a.b.c")).map
      (fun r => resolveSegments r.1.heap (HVal.ref 0) (splitPath "a.b.c")) =
      Except.ok (Except.ok (HVal.prim 2)) :=
  ⟨rfl, rfl, rfl⟩

/-- C2: evaluating the source at the claim's scenario.  With observer `1`
subscribed at `"a.b.c"`, observer `2` at the whole record, and observer `3`
at `"x.y"`, the targeted `set(2, "a.b.c")` notifies only observer `2` (the
whole-record bucket, with the new root): `setProperty` calls
`setState(snapshot)` without forwarding the path, so the per-path
notification branch of `setState` is never reached and the exact-path
observer never fires. -/
theorem setProperty_notifies_only_whole_record :
    storeSubbed.subs = [("a.b.c", [1]), ("", [2]), ("x.y", [3])] ∧
    (setProperty storeSubbed (HVal.prim 2) (some "a.b.c")).map
      (fun r => r.2.map Prod.fst) = Except.ok [2] :=
  ⟨rfl, rfl⟩

/-- C3 counterexample: on a cell whose subscriber set is `[1, 2]` at the
start of the pass, subscriber `1`'s callback adds observer `3` (via
`subscribe(3, false)`); the pass invokes `1`, `2` and then also `3` — an
observer added mid-pass *is* invoked within the same pass, so the set of
observers invoked is not the set subscribed when the pass began. -/
theorem mid_pass_added_observer_invoked :
    (Particle.notify 5 [(1, ⟨[SetAction.add 3], false⟩)] cellOneTwo).map
      (fun r => r.invoked.map Prod.fst) = some [1, 2, 3] :=
  rfl

/-- C3 (amended): `notifySubscribers` iterates the live `Set` — there is no
snapshot.  For a pass starting at `[a, b]` where `a`'s callback first adds
a fresh observer `c` and then removes the not-yet-visited `b`: the pass
invokes exactly `a` followed by `c` (each with the pass value), skipping
the removed `b`, and the set afterwards is `[a, c]`. -/
theorem notify_live_set_iteration (p : Particle Nat) (a b c : Nat) (fuel : Nat)
    (hsubs : p.subscribers = [a, b])
    (hab : a ≠ b) (hac : a ≠ c) (hbc : b ≠ c) (hfuel : 2 ≤ fuel) :
    Particle.notify fuel [(a, ⟨[SetAction.add c, SetAction.remove b], false⟩)] p =
      some ⟨[(a, p.state), (c, p.state)], [a, c], 0⟩ := by
  obtain ⟨f, rfl⟩ : ∃ f, fuel = f + 2 := ⟨fuel - 2, by omega⟩
  have hca : c ≠ a := fun h => hac h.symm
  have hcb : c ≠ b := fun h => hbc h.symm
  have hba : b ≠ a := fun h => hab h.symm
  rw [Particle.notify, hsubs]
  show notifyAux _ _ (f + 2) [] [a, b] [] 0 = _
  have e1 : (a == c) = false := by simp [hac]
  have e2 : (a == b) = false := by simp [hab]
  simp [notifyAux, lookupCb, List.find?, applyAct, cbInvoke, hab, hac, hbc, hca, hcb,
    hba, e1, e2]

/-- C3 witness: the live-iteration theorem at the concrete cell with
subscribers `[1, 2]`, adding `3` and removing `2` mid-pass. -/
theorem notify_live_set_iteration_witness :
    Particle.notify 2 [(1, ⟨[SetAction.add 3, SetAction.remove 2], false⟩)] cellOneTwo =
      some ⟨[(1, some 0), (3, some 0)], [1, 3], 0⟩ :=
  notify_live_set_iteration cellOneTwo 1 2 3 2 rfl (by decide) (by decide) (by decide)
    (by decide)

/-- C4 counterexample: on a cell whose current state is already `0` and
which has subscriber `7`, both calls of `publish(0)` short-circuit — the
subscriber is notified zero times in total, not exactly once, so the
claim's universal quantification over every cell and value fails. -/
theorem publish_same_reference_no_notification :
    Particle.publish 5 [] cellSeven (some 0) = some ⟨some 0, cellSeven, [], 0⟩ ∧
    runOps 5 [] [POp.publish (some 0), POp.publish (some 0)] cellSeven =
      some cellSeven :=
  ⟨rfl, rfl⟩

/-- C4 (amended): when the published value differs from the cell's current
value, publishing it twice in a row notifies each subscriber exactly once
in total (all during the first call, with the new value), appends at most
one history entry, and the second call is a complete no-op that still
returns the value and leaves state, history and cursor unchanged; when the
value is already the current one, both calls are no-ops (zero
notifications). -/
theorem publish_identity_short_circuit (p : Particle Nat) (v : Option Nat) (fuel : Nat)
    (hne : p.state ≠ v) (hfuel : p.subscribers.length ≤ fuel) :
    ∃ p1 : Particle Nat,
      Particle.publish fuel [] p v =
        some ⟨v, p1, p.subscribers.map (fun x => (x, v)), 0⟩ ∧
      Particle.publish fuel [] p1 v = some ⟨v, p1, [], 0⟩ ∧
      p1.state = v ∧
      p1.history.length ≤ p.history.length + 1 := by
  have hact : ∀ x ∈ p.subscribers, (lookupCb [] x).actions = [] := by
    intro x _; rfl
  have hfil : (p.subscribers.filter (fun x => (lookupCb [] x).throws)).length = 0 := by
    simp [lookupCb_nil]
  refine ⟨publishedCell p v, ?_, ?_, rfl, ?_⟩
  · rw [publish_changed p v [] fuel hne hact hfuel, hfil]
  · rw [Particle.publish, if_pos (show (publishedCell p v).state = v from rfl)]
  · unfold publishedCell
    cases hd : p.debug
    · simp
    · simp only [if_true]
      have := List.length_take (p.cursor + 1) p.history
      simp only [List.length_append, List.length_cons, List.length_nil]
      omega

/-- C4 witness: the amended theorem at the concrete cell with subscriber
`7` and state `0`, publishing the fresh value `1` twice. -/
theorem publish_identity_short_circuit_witness :
    ∃ p1 : Particle Nat,
      Particle.publish 1 [] cellSeven (some 1) =
        some ⟨some 1, p1, [(7, some 1)], 0⟩ ∧
      Particle.publish 1 [] p1 (some 1) = some ⟨some 1, p1, [], 0⟩ ∧
      p1.state = some 1 ∧
      p1.history.length ≤ cellSeven.history.length + 1 :=
  publish_identity_short_circuit cellSeven (some 1) 1 (by decide) (by decide)

/-- C5: starting a history-enabled cell at `A`, publishing `B` then `C`
(pairwise distinct), two `undo()` calls make the current value `A`, and two
further `redo()` calls make it `C`. -/
theorem undo_redo_round_trip (A B C : Nat) (hab : A ≠ B) (hbc : B ≠ C) (hac : A ≠ C) :
    (runOps 0 [] [POp.publish (some B), POp.publish (some C), POp.undo, POp.undo]
        (Particle.init (some A) true)).map (fun p => p.state) = some (some A) ∧
    (runOps 0 []
        [POp.publish (some B), POp.publish (some C), POp.undo, POp.undo,
          POp.redo, POp.redo]
        (Particle.init (some A) true)).map (fun p => p.state) = some (some C) := by
  constructor <;>
    simp [runOps, runOp, Particle.publish, Particle.init, Particle.undo, Particle.redo,
      Particle.notify, notifyAux, Particle.canUndo, Particle.canRedo, jsGet, hab, hbc,
      hac, List.take]

/-- C5 witness: the round trip at `A = 0`, `B = 1`, `C = 2`. -/
theorem undo_redo_round_trip_witness :
    (runOps 0 [] [POp.publish (some 1), POp.publish (some 2), POp.undo, POp.undo]
        (Particle.init (some 0) true)).map (fun p => p.state) = some (some 0) ∧
    (runOps 0 []
        [POp.publish (some 1), POp.publish (some 2), POp.undo, POp.undo,
          POp.redo, POp.redo]
        (Particle.init (some 0) true)).map (fun p => p.state) = some (some 2) :=
  undo_redo_round_trip 0 1 2 (by decide) (by decide) (by decide)

/-- C6: for a cell constructed with history enabled, after any finite
sequence of `publish`/`undo`/`redo` calls (under any subscriber behaviour),
the cursor stays strictly inside the history and the history entry at the
cursor is the current value. -/
theorem history_invariant_theorem (fuel : Nat) (env : CbEnv) (v0 : Option Nat)
    (ops : List (POp Nat)) (q : Particle Nat)
    (h : runOps fuel env ops (Particle.init v0 true) = some q) :
    q.cursor < q.history.length ∧ q.history.get? q.cursor = some q.state := by
  have hinit : HistoryInv (Particle.init v0 true) := by
    refine ⟨rfl, ?_, ?_⟩ <;> simp [Particle.init]
  have := runOps_inv fuel env ops (Particle.init v0 true) q hinit h
  exact ⟨this.2.1, this.2.2⟩

/-- C6 witness: the invariant after `publish(1)` then `undo()` from initial
value `0`. -/
theorem history_invariant_theorem_witness :
    cellUndone.cursor < cellUndone.history.length ∧
    cellUndone.history.get? cellUndone.cursor = some cellUndone.state :=
  history_invariant_theorem 0 [] (some 0) [POp.publish (some 1), POp.undo] cellUndone
    (by rfl)

/-- C7: during the notification pass of a state-changing `publish` with
mutation-free callbacks, every subscriber is invoked once with the new
value even when some callbacks throw — each exception is caught at the
notification site (counted, one per throwing callback), the set is
unchanged, and `publish` returns normally. -/
theorem publish_isolates_exceptions (p : Particle Nat) (v : Option Nat)
    (env : CbEnv) (fuel : Nat)
    (hne : p.state ≠ v)
    (hact : ∀ x ∈ p.subscribers, (lookupCb env x).actions = [])
    (hfuel : p.subscribers.length ≤ fuel) :
    ∃ p1 : Particle Nat,
      Particle.publish fuel env p v =
        some ⟨v, p1, p.subscribers.map (fun x => (x, v)),
              (p.subscribers.filter (fun x => (lookupCb env x).throws)).length⟩ ∧
      p1.subscribers = p.subscribers := by
  refine ⟨publishedCell p v, ?_, rfl⟩
  exact publish_changed p v env fuel hne hact hfuel

/-- C7 witness: subscriber `1` throws, subscriber `2` is still invoked with
the new value; one exception caught, none propagated. -/
theorem publish_isolates_exceptions_witness :
    ∃ p1 : Particle Nat,
      Particle.publish 2 [(1, ⟨[], true⟩)] cellOneTwo (some 3) =
        some ⟨some 3, p1, [(1, some 3), (2, some 3)], 1⟩ ∧
      p1.subscribers = [1, 2] :=
  publish_isolates_exceptions cellOneTwo (some 3) [(1, ⟨[], true⟩)] 2 (by decide)
    (by decide) (by decide)

/-- C8 counterexample: constructing an `atom` whose state factory throws
propagates the exception out of the construction — the initial-state
resolution in the `atom` source has no try/catch, so no instance is
yielded, contradicting the claim for the `atom` half. -/
theorem atom_factory_exception_propagates :
    atomConstruct (Factory.fn (Except.error (JsErr.thrown 0))) false =
      Except.error (JsErr.thrown 0) :=
  rfl

/-- C8 (amended): `createStore` recovers from a throwing initializer — it
logs and falls back to `undefined`, yielding a constructed primitive store —
while `atom` does not: a throwing state factory propagates its exception to
the caller, leaving no constructed instance. -/
theorem construction_failure_split (h : Heap) (e : JsErr) :
    createStore h (Factory.fn (Except.error e)) = StoreInst.primitive HVal.undef ∧
    atomConstruct (Factory.fn (Except.error e)) false = Except.error e :=
  ⟨rfl, rfl⟩

/-- C8 witness: the split at the concrete exception `thrown 7`. -/
theorem construction_failure_split_witness :
    createStore [] (Factory.fn (Except.error (JsErr.thrown 7))) =
      StoreInst.primitive HVal.undef ∧
    atomConstruct (Factory.fn (Except.error (JsErr.thrown 7))) false =
      Except.error (JsErr.thrown 7) :=
  construction_failure_split [] (JsErr.thrown 7)

/-- C9: the previous-state peek of a history-enabled cell returns
`undefined` when the cursor is `0`, the *current* state when the cursor is
`1` (the computed previous index is exactly zero — the off-by-one edge the
claim describes, returning the entry at the cursor rather than index `0`),
and the history entry at `cursor - 1` when the cursor is at least `2`. -/
theorem rewind_cases (p : Particle Nat) (hd : p.debug = true) :
    (p.cursor = 0 → Particle.rewind p = none) ∧
    (p.cursor = 1 → Particle.rewind p = p.state) ∧
    (∀ n : Nat, p.cursor = n + 2 → Particle.rewind p = jsGet p.history (n + 1)) := by
  refine ⟨?_, ?_, ?_⟩
  · intro h0
    rw [Particle.rewind]
    simp [hd, h0]
  · intro h1
    rw [Particle.rewind]
    simp [hd, h1]
  · intro n hn
    rw [Particle.rewind]
    simp only [hd, Bool.not_true, Bool.false_eq_true, if_false, hn]
    have e1 : ((n + 2 : Nat) : Int) - 1 = (n : Int) + 1 := by push_cast; ring
    rw [e1]
    have e2 : ¬ ((n : Int) + 1 = 0) := by omega
    have e3 : (0 : Int) < (n : Int) + 1 := by omega
    rw [if_neg e2, if_pos e3]
    simp [jsGetI]
    omega

/-- C9 witness: at cursor `1` (with `history = [9, 5]` and current state
`5`) the peek returns the current state `5`, not the entry `9` at index
`0`. -/
theorem rewind_cases_witness : Particle.rewind cellCursorOne = cellCursorOne.state :=
  (rewind_cases cellCursorOne rfl).2.1 rfl

/-- C10: for every cell constructed by `atom` (any initial value, any debug
flag), reading the `timeline.backward` getter throws a TypeError — its body
calls `observable.backward()`, but the imported `Particle` class defines
the peek only under the name `rewind` — while reading `timeline.forward`
succeeds and yields the `forward()` peek. -/
theorem timeline_backward_type_error (v : HVal) (d : Bool) :
    timelineBackward (Particle.init (some v) d) = Except.error JsErr.typeError ∧
    timelineForward (Particle.init (some v) d) =
      Except.ok (Particle.forward (Particle.init (some v) d)) :=
  ⟨rfl, rfl⟩

/-- C10 witness: the timeline getters at a concrete atom-constructed cell. -/
theorem timeline_backward_type_error_witness :
    timelineBackward (Particle.init (some (HVal.prim 0)) true) =
      Except.error JsErr.typeError ∧
    timelineForward (Particle.init (some (HVal.prim 0)) true) =
      Except.ok (Particle.forward (Particle.init (some (HVal.prim 0)) true)) :=
  timeline_backward_type_error (HVal.prim 0) true
